import Mathlib

/-
  Verification of the job-queue / worker subsystem of the k8s-watchdog-ai
  service.  The definitions below are a shallow embedding of the Python
  sources: `src/storage/reports.py` (jobs table operations),
  `src/jobs/queue.py` (JobQueue facade), `src/jobs/worker.py` (worker loop),
  `src/jobs/processors.py` (job executor) and `src/main.py` (trigger
  endpoint).  Timestamps are modelled as naturals (SQLite stores them as
  monotone text timestamps; only their order matters here).
-/

namespace Watchdog

/-- Job status values used in the `jobs` table: `pending`, `processing`,
`completed`, `failed`. -/
inductive Status where
  | pending
  | processing
  | completed
  | failed
deriving DecidableEq

/-- One row of the `jobs` table (schema in `ReportStorage.initialize`):
`id, type, status, payload, created_at, started_at, completed_at, result,
error, retry_count`. -/
structure JobRow where
  id : Nat
  type : String
  status : Status
  payload : Option String
  created_at : Nat
  started_at : Option Nat
  completed_at : Option Nat
  result : Option String
  error : Option String
  retry_count : Nat
deriving DecidableEq

/-- JSON values, as produced by the Python `json` module used for job
payloads and results. -/
inductive Json where
  | null
  | bool (b : Bool)
  | num (n : Int)
  | str (s : String)
  | arr (elems : List Json)
  | obj (fields : List (String × Json))

mutual

/-- Model of `json.dumps` on a JSON value. -/
def dumps : Json → String
  | Json.null => "null"
  | Json.bool true => "true"
  | Json.bool false => "false"
  | Json.num n => toString n
  | Json.str s => "\"" ++ s ++ "\""
  | Json.arr es => "[" ++ dumpsElems es ++ "]"
  | Json.obj fs => "\x7b" ++ dumpsFields fs ++ "\x7d"

/-- Comma-separated serialization of array elements. -/
def dumpsElems : List Json → String
  | [] => ""
  | [x] => dumps x
  | x :: y :: xs => dumps x ++ ", " ++ dumpsElems (y :: xs)

/-- Comma-separated serialization of object members. -/
def dumpsFields : List (String × Json) → String
  | [] => ""
  | [(k, v)] => "\"" ++ k ++ "\": " ++ dumps v
  | (k, v) :: y :: xs => "\"" ++ k ++ "\": " ++ dumps v ++ ", " ++ dumpsFields (y :: xs)

end

/-- JSON whitespace. -/
def isWs (c : Char) : Bool :=
  c = ' ' || c = '\t' || c = '\n' || c = '\r'

/-- Drop leading JSON whitespace. -/
def skipWs : List Char → List Char
  | [] => []
  | c :: cs => if isWs c then skipWs cs else c :: cs

/-- Expect a literal character sequence; return the remaining input. -/
def expectChars : List Char → List Char → Option (List Char)
  | [], rest => some rest
  | _ :: _, [] => none
  | l :: ls, c :: cs => if c = l then expectChars ls cs else none

/-- Parse the body of a JSON string after the opening quote (escape
sequences are not modelled). -/
def parseStringBody : List Char → List Char → Option (String × List Char)
  | [], _ => none
  | c :: cs, acc =>
    if c = '"' then some (String.mk acc.reverse, cs)
    else parseStringBody cs (c :: acc)

/-- Accumulate a run of decimal digits. -/
def parseNatAux : List Char → Nat → Nat × List Char
  | [], acc => (acc, [])
  | c :: cs, acc =>
    if c.isDigit then parseNatAux cs (acc * 10 + (c.toNat - 48))
    else (acc, c :: cs)

/-- Parse an integer JSON number (fractions/exponents are not modelled). -/
def parseNum : List Char → Option (Int × List Char)
  | '-' :: cs =>
    match cs with
    | c :: _ =>
      if c.isDigit then
        let p := parseNatAux cs 0
        some (-(p.1 : Int), p.2)
      else none
    | [] => none
  | cs =>
    match cs with
    | c :: _ =>
      if c.isDigit then
        let p := parseNatAux cs 0
        some ((p.1 : Int), p.2)
      else none
    | [] => none

mutual

/-- Fuel-bounded recursive-descent parser for a JSON value. -/
def parseValue : Nat → List Char → Option (Json × List Char)
  | 0, _ => none
  | fuel + 1, cs =>
    match skipWs cs with
    | [] => none
    | c :: cs' =>
      if c = 'n' then (expectChars ['u', 'l', 'l'] cs').map (fun r => (Json.null, r))
      else if c = 't' then (expectChars ['r', 'u', 'e'] cs').map (fun r => (Json.bool true, r))
      else if c = 'f' then (expectChars ['a', 'l', 's', 'e'] cs').map (fun r => (Json.bool false, r))
      else if c = '"' then (parseStringBody cs' []).map (fun p => (Json.str p.1, p.2))
      else if c = '[' then
        match skipWs cs' with
        | ']' :: rest => some (Json.arr [], rest)
        | cs'' => (parseElems fuel cs'').map (fun p => (Json.arr p.1, p.2))
      else if c = '\x7b' then
        match skipWs cs' with
        | '\x7d' :: rest => some (Json.obj [], rest)
        | cs'' => (parseMembers fuel cs'').map (fun p => (Json.obj p.1, p.2))
      else if c.isDigit || c = '-' then
        (parseNum (c :: cs')).map (fun p => (Json.num p.1, p.2))
      else none

/-- Parse the elements of a non-empty JSON array up to the closing bracket. -/
def parseElems : Nat → List Char → Option (List Json × List Char)
  | 0, _ => none
  | fuel + 1, cs =>
    match parseValue fuel cs with
    | none => none
    | some (v, rest) =>
      match skipWs rest with
      | ',' :: rest' => (parseElems fuel rest').map (fun p => (v :: p.1, p.2))
      | ']' :: rest' => some ([v], rest')
      | _ => none

/-- Parse the members of a non-empty JSON object up to the closing brace. -/
def parseMembers : Nat → List Char → Option (List (String × Json) × List Char)
  | 0, _ => none
  | fuel + 1, cs =>
    match skipWs cs with
    | '"' :: cs' =>
      match parseStringBody cs' [] with
      | none => none
      | some (key, rest) =>
        match skipWs rest with
        | ':' :: rest' =>
          match parseValue fuel rest' with
          | none => none
          | some (v, rest'') =>
            match skipWs rest'' with
            | ',' :: rest3 => (parseMembers fuel rest3).map (fun p => ((key, v) :: p.1, p.2))
            | '\x7d' :: rest3 => some ([(key, v)], rest3)
            | _ => none
        | _ => none
    | _ => none

end

/-- Model of `json.loads`: parse a complete JSON document, `none` on a
decode error (the `json.JSONDecodeError` path). -/
def loads (s : String) : Option Json :=
  match parseValue (s.length + 1) s.toList with
  | some (v, rest) => if (skipWs rest).isEmpty then some v else none
  | none => none

/-- The rows matching the SQL filter `WHERE status = 'pending'`. -/
def pendingRows (tbl : List JobRow) : List JobRow :=
  tbl.filter (fun r => decide (r.status = Status.pending))

/-- `ReportStorage.get_pending_job`: `SELECT ... WHERE status = 'pending'
ORDER BY created_at ASC LIMIT 1`, i.e. the pending row with minimal
`created_at` (first such row on ties). -/
def get_pending_job (tbl : List JobRow) : Option JobRow :=
  (pendingRows tbl).argmin (fun r => r.created_at)

/-- The row-level effect of `ReportStorage.update_job_status`: the SQL
`SET status = ?, result = ?, error = ?, {timestamp_field} = ?` where
`timestamp_field` is `started_at` when the new status is `processing` and
`completed_at` otherwise. -/
def applyStatusUpdate (status : Status) (result error : Option String)
    (now : Nat) (r : JobRow) : JobRow :=
  if status = Status.processing then
    { r with status := status, result := result, error := error,
             started_at := some now }
  else
    { r with status := status, result := result, error := error,
             completed_at := some now }

/-- The effect on the whole table of a SQL `UPDATE jobs SET ... WHERE
id = ?`: apply `f` to the rows whose id matches, keep the others. -/
def updateWhere (job_id : Nat) (f : JobRow → JobRow) (tbl : List JobRow) :
    List JobRow :=
  tbl.map (fun r => if r.id = job_id then f r else r)

/-- `ReportStorage.update_job_status`: `UPDATE jobs SET status = ?,
result = ?, error = ?, {timestamp_field} = ? WHERE id = ?`. -/
def update_job_status (tbl : List JobRow) (job_id : Nat) (status : Status)
    (result error : Option String) (now : Nat) : List JobRow :=
  updateWhere job_id (applyStatusUpdate status result error now) tbl

/-- The row-level effect of `ReportStorage.increment_job_retry`. -/
def applyRetryUpdate (r : JobRow) : JobRow :=
  { r with retry_count := r.retry_count + 1, status := Status.pending }

/-- `ReportStorage.increment_job_retry`: `UPDATE jobs SET retry_count =
retry_count + 1, status = 'pending' WHERE id = ?`. -/
def increment_job_retry (tbl : List JobRow) (job_id : Nat) : List JobRow :=
  updateWhere job_id applyRetryUpdate tbl

/-- `ReportStorage.insert_job`: `INSERT INTO jobs (type, status, payload)
VALUES (?, 'pending', ?)`; `created_at` defaults to the current timestamp,
the other columns to NULL / 0, and the id is assigned by AUTOINCREMENT
(passed here explicitly as a fresh `job_id`). -/
def insert_job (tbl : List JobRow) (job_id : Nat) (job_type : String)
    (payload : Option String) (now : Nat) : List JobRow :=
  tbl ++ [{ id := job_id, type := job_type, status := Status.pending,
            payload := payload, created_at := now, started_at := none,
            completed_at := none, result := none, error := none,
            retry_count := 0 }]

/-- `SELECT ... FROM jobs WHERE id = ?` (used to read a single row back). -/
def findJob (tbl : List JobRow) (job_id : Nat) : Option JobRow :=
  tbl.find? (fun r => decide (r.id = job_id))

/-- The `Job` dataclass of `src/jobs/queue.py`: `id, type, status,
payload (Optional[dict]), created_at (Optional), retry_count`. -/
structure Job where
  id : Nat
  type : String
  status : Status
  payload : Option Json := none
  created_at : Option Nat := none
  retry_count : Nat := 0

/-- Python truthiness of `job_data.get("payload")` for an optional TEXT
column: NULL and the empty string are falsy. -/
def rowPayloadTruthy : Option String → Bool
  | some s => !s.isEmpty
  | none => false

/-- The row-to-`Job` translation inside `JobQueue.get_next_job`: parse the
payload only when truthy; a `json.JSONDecodeError` is caught (warning
logged) and leaves `payload = None`. -/
def rowToJob (row : JobRow) : Job :=
  let payload : Option Json :=
    if rowPayloadTruthy row.payload then
      match row.payload with
      | some s => loads s
      | none => none
    else none
  { id := row.id, type := row.type, status := row.status,
    payload := payload, created_at := some row.created_at,
    retry_count := row.retry_count }

/-- `JobQueue.get_next_job`: delegate to `get_pending_job`, return `None`
when there is no pending row, otherwise build the `Job`. -/
def get_next_job (tbl : List JobRow) : Option Job :=
  match get_pending_job tbl with
  | none => none
  | some row => some (rowToJob row)

/-- Python truthiness of the optional `payload` dict argument of
`JobQueue.enqueue`: `None` and the empty dict are falsy. -/
def dictTruthy : Option (List (String × Json)) → Bool
  | some d => !d.isEmpty
  | none => false

/-- The serialized payload computed by `JobQueue.enqueue`:
`payload_str = json.dumps(payload) if payload else None`. -/
def enqueue_payload_str (payload : Option (List (String × Json))) :
    Option String :=
  if dictTruthy payload then
    match payload with
    | some d => some (dumps (Json.obj d))
    | none => none
  else none

/-- `JobQueue.enqueue`: serialize the payload (if truthy) and insert a
`pending` job row. -/
def enqueue (tbl : List JobRow) (job_id : Nat) (job_type : String)
    (payload : Option (List (String × Json))) (now : Nat) : List JobRow :=
  insert_job tbl job_id job_type (enqueue_payload_str payload) now

/-- `JobQueue.mark_processing`: `update_job_status(job_id, "processing")`
(the optional `result`/`error` arguments default to NULL). -/
def mark_processing (tbl : List JobRow) (job_id now : Nat) : List JobRow :=
  update_job_status tbl job_id Status.processing none none now

/-- `JobQueue.mark_completed`: serialize the result and
`update_job_status(job_id, "completed", result=result_str)`. -/
def mark_completed (tbl : List JobRow) (job_id : Nat) (result : Json)
    (now : Nat) : List JobRow :=
  update_job_status tbl job_id Status.completed (some (dumps result)) none now

/-- `JobQueue.mark_failed`: with `retry=True` call `increment_job_retry`
(the error text is only logged); otherwise
`update_job_status(job_id, "failed", error=error)`. -/
def mark_failed (tbl : List JobRow) (job_id : Nat) (error : String)
    (retry : Bool) (now : Nat) : List JobRow :=
  if retry then increment_job_retry tbl job_id
  else update_job_status tbl job_id Status.failed none (some error) now

-- Concrete rows used as evaluation witnesses.

/-- An early pending job (created at time 1). -/
def rowA : JobRow :=
  { id := 1, type := "generate_report", status := Status.pending,
    payload := none, created_at := 1, started_at := none,
    completed_at := none, result := none, error := none, retry_count := 0 }

/-- A later pending job (created at time 5). -/
def rowB : JobRow :=
  { id := 2, type := "generate_report", status := Status.pending,
    payload := none, created_at := 5, started_at := none,
    completed_at := none, result := none, error := none, retry_count := 0 }

/-- A small concrete jobs table, later job listed first. -/
def tblC4 : List JobRow := [rowB, rowA]

/-- A pending row carrying a malformed payload string. -/
def rowBad : JobRow :=
  { id := 3, type := "generate_report", status := Status.pending,
    payload := some "not json", created_at := 2, started_at := none,
    completed_at := none, result := none, error := none, retry_count := 0 }

/-- A table where the retried job (rowA) is older than a newer pending
job (rowB). -/
def tblC5 : List JobRow := [rowB, rowA]

-- Worker loop (src/jobs/worker.py) -------------------------------------

/-- `settings.job_max_retries` (config.py), default 3. -/
def job_max_retries : Nat := 3

/-- `settings.job_poll_interval` (config.py), default 5 seconds. -/
def job_poll_interval : Nat := 5

/-- One iteration of `_worker_loop` in which the executed job raises:
dequeue the next job; if there is none the table is unchanged (the loop
only sleeps); otherwise mark it `processing`, let `process_job` raise,
compute `should_retry = job.retry_count < settings.job_max_retries` from
the dequeued snapshot and call `mark_failed(job.id, error_msg,
retry=should_retry)`. -/
def failingAttempt (max_retries : Nat) (error_msg : String) (now : Nat)
    (tbl : List JobRow) : List JobRow :=
  match get_next_job tbl with
  | none => tbl
  | some job =>
    mark_failed (mark_processing tbl job.id now) job.id error_msg
      (decide (job.retry_count < max_retries)) now

/-- Iterate `failingAttempt`: `n` successive worker iterations against an
executor that raises on every attempt. -/
def runFailures (max_retries : Nat) (error_msg : String) (now : Nat) :
    Nat → List JobRow → List JobRow
  | 0, tbl => tbl
  | n + 1, tbl =>
      runFailures max_retries error_msg now n
        (failingAttempt max_retries error_msg now tbl)

/-- The worker loop's control position: between iterations (`idle`) or
executing a dequeued job (`running`, remembering the dequeued snapshot's
id and retry_count). -/
inductive WPhase where
  | idle
  | running (job_id : Nat) (retry_count : Nat)

/-- Global state driven by the single worker: the jobs table, the worker
phase, and the next AUTOINCREMENT id. -/
structure WState where
  tbl : List JobRow
  phase : WPhase
  next_id : Nat

/-- The step relation of the job system under the single worker loop of
`_worker_loop` plus external enqueues: an external trigger may insert a
pending job at any time; when idle the worker polls and either sleeps
(queue empty) or marks the dequeued job `processing`; a running job
finishes either successfully (`mark_completed`) or by raising
(`mark_failed` with `retry = retry_count < max_retries`). -/
inductive WStep (max_retries : Nat) : WState → WState → Prop where
  | enqueueStep (s : WState) (job_type : String) (payload : Option String)
      (now : Nat) :
      WStep max_retries s
        { tbl := insert_job s.tbl s.next_id job_type payload now,
          phase := s.phase, next_id := s.next_id + 1 }
  | pollEmpty (s : WState) (h : s.phase = WPhase.idle)
      (hq : get_next_job s.tbl = none) : WStep max_retries s s
  | dequeueStep (s : WState) (job : Job) (now : Nat)
      (h : s.phase = WPhase.idle) (hq : get_next_job s.tbl = some job) :
      WStep max_retries s
        { tbl := mark_processing s.tbl job.id now,
          phase := WPhase.running job.id job.retry_count,
          next_id := s.next_id }
  | completeStep (s : WState) (i rc : Nat) (result : Json) (now : Nat)
      (h : s.phase = WPhase.running i rc) :
      WStep max_retries s
        { tbl := mark_completed s.tbl i result now,
          phase := WPhase.idle, next_id := s.next_id }
  | failStep (s : WState) (i rc : Nat) (error_msg : String) (now : Nat)
      (h : s.phase = WPhase.running i rc) :
      WStep max_retries s
        { tbl := mark_failed s.tbl i error_msg (decide (rc < max_retries)) now,
          phase := WPhase.idle, next_id := s.next_id }

/-- The initial state: empty jobs table, worker idle. -/
def initState : WState :=
  { tbl := [], phase := WPhase.idle, next_id := 0 }

/-- States reachable from the initial state under the worker step
relation. -/
inductive ReachableW (max_retries : Nat) : WState → Prop where
  | init : ReachableW max_retries initState
  | step (s s' : WState) (h : ReachableW max_retries s)
      (hs : WStep max_retries s s') : ReachableW max_retries s'

/-- The number of rows with status `processing`. -/
def processingCount (tbl : List JobRow) : Nat :=
  tbl.countP (fun r => decide (r.status = Status.processing))

/-- Worker-phase part of the inductive invariant: when idle no row is
`processing`; while running job `i`, only rows with id `i` can be
`processing`. -/
def PhaseInv : WPhase → List JobRow → Prop
  | WPhase.idle, tbl => ∀ r ∈ tbl, r.status ≠ Status.processing
  | WPhase.running i _, tbl => ∀ r ∈ tbl, r.status = Status.processing → r.id = i

/-- Inductive invariant for the worker system: ids are below the next
AUTOINCREMENT id (hence fresh), ids are pairwise distinct, and the phase
invariant holds. -/
def WInv (s : WState) : Prop :=
  (∀ r ∈ s.tbl, r.id < s.next_id) ∧
  (s.tbl.map (fun r => r.id)).Nodup ∧
  PhaseInv s.phase s.tbl

-- Worker loop control flow (worker.py lines 120-137) --------------------

/-- The observable outcome of one body iteration of `_worker_loop`: it
completed normally, the task was cancelled (`asyncio.CancelledError`), or
the loop's own control logic raised some other exception. -/
inductive LoopIterOutcome where
  | ok
  | cancelled
  | error (e : String)
deriving DecidableEq

/-- What the loop does next. -/
inductive LoopDirective where
  | continueAfter (pause_seconds : Nat)
  | propagateCancellation
deriving DecidableEq

/-- The `except` clauses at the bottom of `_worker_loop`: a
`CancelledError` is logged and re-raised; any other exception is logged,
the loop sleeps 5 seconds and iterates again; a normal iteration simply
iterates again. -/
def worker_loop_handle : LoopIterOutcome → LoopDirective
  | LoopIterOutcome.ok => LoopDirective.continueAfter 0
  | LoopIterOutcome.cancelled => LoopDirective.propagateCancellation
  | LoopIterOutcome.error _ => LoopDirective.continueAfter 5

-- Job executor (src/jobs/processors.py) ---------------------------------

/-- A Python exception, as formatted by the worker:
`f"{type(job_error).__name__}: {str(job_error)}"`. -/
structure PyErr where
  kind : String
  msg : String
deriving DecidableEq

/-- worker.py line 93: the structured failure message. -/
def format_error (e : PyErr) : String := e.kind ++ ": " ++ e.msg

/-- Outcomes of the external collaborators used by
`process_report_generation`: the analysis agent, report persistence and
Slack delivery. -/
structure ExecEnv where
  generate : Except PyErr (String × List (String × Json))
  save : String → Except PyErr Nat
  deliver : Except PyErr Unit

/-- The success dictionary returned by `process_report_generation`
(generation-time/size metadata elided). -/
structure ExecResult where
  status : String
  report_id : Nat
deriving DecidableEq

/-- Observable trace of one `process_report_generation` attempt: the
returned value or re-raised exception, whether `agent.cleanup()` ran, and
whether the thread's event loop was closed (the `finally` block). -/
structure ExecTrace where
  outcome : Except PyErr ExecResult
  cleanup_ran : Bool
  loop_closed : Bool

/-- `process_report_generation`: generate the report, save it, deliver it
to Slack, then run `agent.cleanup()` and return the success dict; the
`finally` block closes the thread's event loop on every path; the outer
`except` logs and re-raises the exception. -/
def process_report_generation (env : ExecEnv) : ExecTrace :=
  match env.generate with
  | Except.error e => { outcome := Except.error e, cleanup_ran := false, loop_closed := true }
  | Except.ok (report_html, _metadata) =>
    match env.save report_html with
    | Except.error e => { outcome := Except.error e, cleanup_ran := false, loop_closed := true }
    | Except.ok report_id =>
      match env.deliver with
      | Except.error e => { outcome := Except.error e, cleanup_ran := false, loop_closed := true }
      | Except.ok _ =>
        { outcome := Except.ok { status := "success", report_id := report_id },
          cleanup_ran := true, loop_closed := true }

/-- Whether an attempt outcome is a success. -/
def execOk : Except PyErr ExecResult → Bool
  | Except.ok _ => true
  | Except.error _ => false

/-- An environment in which generation and persistence succeed but Slack
delivery raises. -/
def envDeliverFails : ExecEnv :=
  { generate := Except.ok ("<html>report</html>", []),
    save := fun _ => Except.ok 1,
    deliver := Except.error { kind := "SlackApiError", msg := "channel not found" } }

-- Trigger surface (src/main.py, trigger_report) -------------------------

/-- Side effects a trigger handler can request. -/
inductive TriggerEffect where
  | enqueue_job (job_type : String)
  | add_background_task (task : String)
deriving DecidableEq

/-- The `ReportResponse` fields returned by the endpoint. -/
structure TriggerResponse where
  status : String
  message : String
deriving DecidableEq

/-- `trigger_report` (main.py lines 229-244): raise a 409 HTTPException
when `report_in_progress` is set; otherwise schedule
`generate_and_send_report` as a background task and return an accepted
response. -/
def trigger_report (report_in_progress : Bool) :
    Except (Nat × String) (TriggerResponse × List TriggerEffect) :=
  if report_in_progress then
    Except.error (409, "Report generation already in progress")
  else
    Except.ok
      ({ status := "accepted",
         message := "Report generation started in background" },
       [TriggerEffect.add_background_task "generate_and_send_report"])

-- Helper states for the retry-bound trace -------------------------------

/-- The single job after `k` failed attempts, each of which marked it
`processing` (clearing result/error, stamping `started_at`) and then
recycled it to `pending` with an incremented retry count. -/
def retriedState (j : JobRow) (k : Nat) (now : Nat) : JobRow :=
  { j with status := Status.pending, retry_count := k, result := none,
           error := none, started_at := some now }

/-- The single job after the terminal failing attempt: `failed`, retry
count exhausted, error recorded, `completed_at` stamped. -/
def failedState (j : JobRow) (error_msg : String) (now : Nat) : JobRow :=
  { j with status := Status.failed, retry_count := job_max_retries,
           result := none, error := some error_msg,
           started_at := some now, completed_at := some now }

/-- Worker state after one enqueue from the initial state. -/
def wstate1 : WState :=
  { tbl := insert_job [] 0 "generate_report" none 0,
    phase := WPhase.idle, next_id := 1 }

/-- The job dequeued from `wstate1`. -/
def job0 : Job :=
  rowToJob { id := 0, type := "generate_report", status := Status.pending,
             payload := none, created_at := 0, started_at := none,
             completed_at := none, result := none, error := none,
             retry_count := 0 }

/-- Worker state after dequeuing `job0` into execution. -/
def wstate2 : WState :=
  { tbl := mark_processing wstate1.tbl job0.id 1,
    phase := WPhase.running job0.id job0.retry_count, next_id := 1 }

theorem pendingRows_sub {tbl : List JobRow} {r : JobRow}
    (h : r ∈ pendingRows tbl) : r ∈ tbl ∧ r.status = Status.pending := by
  have h' := List.mem_filter.mp h
  exact ⟨h'.1, of_decide_eq_true h'.2⟩

theorem mem_pendingRows {tbl : List JobRow} {r : JobRow}
    (h1 : r ∈ tbl) (h2 : r.status = Status.pending) : r ∈ pendingRows tbl := by
  exact List.mem_filter.mpr ⟨h1, decide_eq_true h2⟩

theorem updateWhere_map_proj {α : Type} (proj : JobRow → α) (job_id : Nat)
    (f : JobRow → JobRow) (hf : ∀ r, r.id = job_id → proj (f r) = proj r)
    (tbl : List JobRow) :
    (updateWhere job_id f tbl).map proj = tbl.map proj := by
  unfold updateWhere
  rw [List.map_map]
  apply List.map_congr_left
  intro r _
  by_cases h : r.id = job_id
  · simp [h, hf r h]
  · simp [h]

theorem updateWhere_filter_ne (job_id : Nat) (f : JobRow → JobRow)
    (hf : ∀ r, (f r).id = r.id) (tbl : List JobRow) :
    (updateWhere job_id f tbl).filter (fun r => decide (r.id ≠ job_id))
      = tbl.filter (fun r => decide (r.id ≠ job_id)) := by
  induction tbl with
  | nil => rfl
  | cons r rest ih =>
    by_cases h : r.id = job_id
    · simpa [updateWhere, List.filter_cons, h, hf r] using ih
    · simpa [updateWhere, List.filter_cons, h] using ih

theorem updateWhere_findJob (job_id : Nat) (f : JobRow → JobRow)
    (hf : ∀ r, (f r).id = r.id) (tbl : List JobRow) :
    findJob (updateWhere job_id f tbl) job_id = (findJob tbl job_id).map f := by
  induction tbl with
  | nil => rfl
  | cons r rest ih =>
    by_cases h : r.id = job_id
    · simp [findJob, updateWhere, List.find?_cons, h, hf r]
    · simpa [findJob, updateWhere, List.find?_cons, h] using ih

theorem findJob_id {tbl : List JobRow} {job_id : Nat} {j : JobRow}
    (h : findJob tbl job_id = some j) : j ∈ tbl ∧ j.id = job_id := by
  refine ⟨List.mem_of_find?_eq_some h, ?_⟩
  have := List.find?_some h
  exact of_decide_eq_true this

theorem eq_of_distinct_ids {tbl : List JobRow}
    (hpw : tbl.Pairwise (fun a b => a.id ≠ b.id))
    {r s : JobRow} (hr : r ∈ tbl) (hs : s ∈ tbl) (h : r.id = s.id) : r = s := by
  by_contra hne
  have hsymm : Symmetric (fun a b : JobRow => a.id ≠ b.id) :=
    fun a b hab he => hab he.symm
  exact (List.Pairwise.forall hsymm hpw hr hs hne) h

/-- C4: `get_pending_job` returns `none` exactly when no row is pending;
otherwise it returns a pending row of the table whose `created_at` is
minimal among pending rows, and when pending rows have pairwise-distinct
`created_at` timestamps its `created_at` is strictly smaller than that of
every other pending row, so repeated dequeues follow strict
creation-time (FIFO) order. -/
theorem C4_fifo_dequeue (tbl : List JobRow) :
    (get_pending_job tbl = none ↔ ∀ r ∈ tbl, r.status ≠ Status.pending) ∧
    (∀ j, get_pending_job tbl = some j →
      j ∈ tbl ∧ j.status = Status.pending ∧
      (∀ k ∈ tbl, k.status = Status.pending → j.created_at ≤ k.created_at) ∧
      (tbl.Pairwise (fun a b => a.created_at ≠ b.created_at) →
        ∀ k ∈ tbl, k.status = Status.pending → k ≠ j →
          j.created_at < k.created_at)) := by
  constructor
  · rw [get_pending_job, List.argmin_eq_none, pendingRows, List.filter_eq_nil_iff]
    constructor
    · intro h r hr hp
      exact absurd (decide_eq_true hp) (h r hr)
    · intro h r hr hp
      exact h r hr (of_decide_eq_true hp)
  · intro j hj
    have hmem : j ∈ (pendingRows tbl).argmin (fun r => r.created_at) := by
      rw [← get_pending_job, hj]; rfl
    have hjp := pendingRows_sub (List.argmin_mem hmem)
    refine ⟨hjp.1, hjp.2, ?_, ?_⟩
    · intro k hk hkp
      exact List.le_of_mem_argmin (mem_pendingRows hk hkp) hmem
    · intro hpw k hk hkp hne
      have hle : j.created_at ≤ k.created_at :=
        List.le_of_mem_argmin (mem_pendingRows hk hkp) hmem
      have hne2 : j.created_at ≠ k.created_at := by
        have hsymm : Symmetric (fun a b : JobRow => a.created_at ≠ b.created_at) := by
          intro a b h; exact h.symm
        exact (List.Pairwise.forall hsymm hpw hjp.1 hk (fun he => hne he.symm))
      exact lt_of_le_of_ne hle hne2

/-- Evaluation witness for C4 on the concrete table `tblC4`. -/
theorem C4_fifo_dequeue_witness :
    get_pending_job tblC4 = some rowA ∧ rowA.created_at < rowB.created_at := by
  have h := (C4_fifo_dequeue tblC4).2 rowA (by decide)
  refine ⟨by decide, h.2.2.2 (by decide) rowB (by decide) (by decide) (by decide)⟩

/-- C6: for a pending row whose stored payload is a string that fails
JSON parsing, `get_next_job` does not fail: it returns the job built from
the row with `payload = none` and every other field taken from the row. -/
theorem C6_malformed_payload_dequeue (tbl : List JobRow) (row : JobRow)
    (s : String) (hrow : get_pending_job tbl = some row)
    (hp : row.payload = some s) (hbad : loads s = none) :
    get_next_job tbl = some
      { id := row.id, type := row.type, status := row.status,
        payload := none, created_at := some row.created_at,
        retry_count := row.retry_count } := by
  unfold get_next_job
  rw [hrow]
  simp [rowToJob, rowPayloadTruthy, hp, hbad]

/-- Evaluation witness for C6: dequeue from a table holding `rowBad`. -/
theorem C6_malformed_payload_dequeue_witness :
    get_next_job [rowBad] = some
      { id := 3, type := "generate_report", status := Status.pending,
        payload := none, created_at := some 2, retry_count := 0 } := by
  exact C6_malformed_payload_dequeue [rowBad] rowBad "not json" (by rfl)
    (by rfl) (by rfl)

/-- C9: a falsy `enqueue` payload argument (either `None` or the empty
dict) is stored as NULL, and the subsequent `get_next_job` returns the
job with `payload = none`: at the queue interface the two are
indistinguishable. -/
theorem C9_falsy_payload_roundtrip (payload : Option (List (String × Json)))
    (h : payload = none ∨ payload = some []) (job_id now : Nat)
    (job_type : String) :
    enqueue_payload_str payload = none ∧
    get_next_job (enqueue [] job_id job_type payload now)
      = some { id := job_id, type := job_type, status := Status.pending,
               payload := none, created_at := some now, retry_count := 0 } := by
  have hstr : enqueue_payload_str payload = none := by
    rcases h with h | h <;> simp [h, enqueue_payload_str, dictTruthy]
  refine ⟨hstr, ?_⟩
  simp [enqueue, insert_job, hstr, get_next_job, get_pending_job, pendingRows,
    rowToJob, rowPayloadTruthy, List.argmin_singleton]

/-- Evaluation witness for C9 at the empty dict. -/
theorem C9_falsy_payload_roundtrip_witness :
    enqueue_payload_str (some []) = none ∧
    get_next_job (enqueue [] 7 "generate_report" (some []) 4)
      = some { id := 7, type := "generate_report", status := Status.pending,
               payload := none, created_at := some 4, retry_count := 0 } :=
  C9_falsy_payload_roundtrip (some []) (Or.inr rfl) 7 4 "generate_report"

/-- C10: `mark_failed` with `retry=True` leaves the stored `error` column
of every row unchanged; `mark_failed` with `retry=False` rewrites the
matching row setting `status = failed`, `error` to the message,
`completed_at` to the current time (and `result` to NULL). -/
theorem C10_error_written_only_on_terminal_failure (tbl : List JobRow)
    (job_id : Nat) (e : String) (now : Nat) :
    (mark_failed tbl job_id e true now).map (fun r => r.error)
        = tbl.map (fun r => r.error) ∧
    findJob (mark_failed tbl job_id e false now) job_id
        = (findJob tbl job_id).map (fun r =>
            { r with status := Status.failed, result := none,
                     error := some e, completed_at := some now }) := by
  constructor
  · show (increment_job_retry tbl job_id).map _ = _
    unfold increment_job_retry
    exact updateWhere_map_proj (fun r => r.error) job_id applyRetryUpdate
      (fun r _ => rfl) tbl
  · show findJob (update_job_status tbl job_id Status.failed none (some e) now) _ = _
    unfold update_job_status
    rw [updateWhere_findJob job_id
      (applyStatusUpdate Status.failed none (some e) now) (fun r => rfl) tbl]
    have hfun : applyStatusUpdate Status.failed none (some e) now
        = fun r =>
          { r with status := Status.failed, result := none,
                   error := some e, completed_at := some now } := by
      funext r
      unfold applyStatusUpdate
      rw [if_neg (by decide : ¬(Status.failed = Status.processing))]
    rw [hfun]

/-- C5: `increment_job_retry` preserves `id, type, payload, created_at,
started_at, completed_at, result, error` of every row, leaves rows with a
different id completely untouched, and rewrites the matching row to
`retry_count + 1` with status `pending`; consequently, when every other
pending row was created later, the retried job is the one returned by
`get_pending_job`. -/
theorem C5_increment_retry_frame (tbl : List JobRow) (job_id : Nat) :
    ((increment_job_retry tbl job_id).map (fun r =>
        (r.id, r.type, r.payload, r.created_at, r.started_at,
         r.completed_at, r.result, r.error))
      = tbl.map (fun r =>
        (r.id, r.type, r.payload, r.created_at, r.started_at,
         r.completed_at, r.result, r.error))) ∧
    ((increment_job_retry tbl job_id).filter (fun r => decide (r.id ≠ job_id))
      = tbl.filter (fun r => decide (r.id ≠ job_id))) ∧
    (findJob (increment_job_retry tbl job_id) job_id
      = (findJob tbl job_id).map applyRetryUpdate) ∧
    (∀ j, findJob tbl job_id = some j →
      tbl.Pairwise (fun a b => a.id ≠ b.id) →
      (∀ k ∈ tbl, k.id ≠ job_id → k.status = Status.pending →
        j.created_at < k.created_at) →
      get_pending_job (increment_job_retry tbl job_id)
        = some (applyRetryUpdate j)) := by
  refine ⟨?_, ?_, ?_, ?_⟩
  · exact updateWhere_map_proj
      (fun r => (r.id, r.type, r.payload, r.created_at, r.started_at,
        r.completed_at, r.result, r.error))
      job_id applyRetryUpdate (fun r _ => rfl) tbl
  · exact updateWhere_filter_ne job_id applyRetryUpdate (fun r => rfl) tbl
  · exact updateWhere_findJob job_id applyRetryUpdate (fun r => rfl) tbl
  · intro j hfind hpw hmin
    obtain ⟨hjmem, hjid⟩ := findJob_id hfind
    have hj' : applyRetryUpdate j ∈ increment_job_retry tbl job_id := by
      have : (if j.id = job_id then applyRetryUpdate j else j)
          ∈ increment_job_retry tbl job_id :=
        List.mem_map_of_mem _ hjmem
      rwa [if_pos hjid] at this
    have hj'p : applyRetryUpdate j ∈ pendingRows (increment_job_retry tbl job_id) :=
      mem_pendingRows hj' rfl
    obtain ⟨m, hm⟩ : ∃ m, get_pending_job (increment_job_retry tbl job_id) = some m := by
      rcases ho : get_pending_job (increment_job_retry tbl job_id) with _ | m
      · rw [get_pending_job, List.argmin_eq_none] at ho
        rw [ho] at hj'p
        exact absurd hj'p (List.not_mem_nil _)
      · exact ⟨m, rfl⟩
    have hmarg : m ∈ (pendingRows (increment_job_retry tbl job_id)).argmin
        (fun r => r.created_at) := by
      rw [← get_pending_job, hm]; rfl
    have hmle : m.created_at ≤ (applyRetryUpdate j).created_at :=
      List.le_of_mem_argmin hj'p hmarg
    have hmp := pendingRows_sub (List.argmin_mem hmarg)
    obtain ⟨r, hrmem, hrm⟩ := List.mem_map.mp hmp.1
    have hmj : m = applyRetryUpdate j := by
      by_cases hr : r.id = job_id
      · rw [if_pos hr] at hrm
        have : r = j := eq_of_distinct_ids hpw hrmem hjmem (hr.trans hjid.symm)
        rw [← hrm, this]
      · rw [if_neg hr] at hrm
        have hrp : r.status = Status.pending := by rw [hrm]; exact hmp.2
        have := hmin r hrmem hr hrp
        rw [← hrm] at hmle
        exact absurd hmle (by simp [applyRetryUpdate]; omega)
    rw [hm, hmj]

/-- Evaluation witness for C5: retrying rowA makes it the next dequeue
ahead of the younger rowB. -/
theorem C5_increment_retry_frame_witness :
    get_pending_job (increment_job_retry tblC5 1)
      = some (applyRetryUpdate rowA) := by
  exact (C5_increment_retry_frame tblC5 1).2.2.2 rowA (by rfl) (by decide)
    (by decide)

theorem applyStatusUpdate_id (status : Status) (result error : Option String)
    (now : Nat) (r : JobRow) :
    (applyStatusUpdate status result error now r).id = r.id := by
  unfold applyStatusUpdate
  split <;> rfl

theorem applyStatusUpdate_status (status : Status) (result error : Option String)
    (now : Nat) (r : JobRow) :
    (applyStatusUpdate status result error now r).status = status := by
  unfold applyStatusUpdate
  split <;> rfl

theorem updateWhere_map_id (job_id : Nat) (f : JobRow → JobRow)
    (hf : ∀ r, (f r).id = r.id) (tbl : List JobRow) :
    (updateWhere job_id f tbl).map (fun r => r.id) = tbl.map (fun r => r.id) :=
  updateWhere_map_proj (fun r => r.id) job_id f (fun r _ => hf r) tbl

theorem updateWhere_mem {job_id : Nat} {f : JobRow → JobRow}
    {tbl : List JobRow} {k : JobRow} (h : k ∈ updateWhere job_id f tbl) :
    ∃ r ∈ tbl, k = if r.id = job_id then f r else r := by
  obtain ⟨r, hr, hrk⟩ := List.mem_map.mp h
  exact ⟨r, hr, hrk.symm⟩

theorem countP_le_one_of_nodup_ids {tbl : List JobRow}
    (hnodup : (tbl.map (fun r => r.id)).Nodup) (i : Nat) :
    tbl.countP (fun r => decide (r.id = i)) ≤ 1 := by
  induction tbl with
  | nil => simp
  | cons r rest ih =>
    rw [List.map_cons, List.nodup_cons] at hnodup
    by_cases h : r.id = i
    · rw [List.countP_cons_of_pos _ _ (by simpa using h)]
      have hz : rest.countP (fun r => decide (r.id = i)) = 0 := by
        rw [List.countP_eq_zero]
        intro k hk hdec
        have hki : k.id = i := of_decide_eq_true hdec
        have hmem : k.id ∈ List.map (fun r => r.id) rest :=
          List.mem_map_of_mem (fun r => r.id) hk
        rw [hki, ← h] at hmem
        exact hnodup.1 hmem
      omega
    · rw [List.countP_cons_of_neg _ _ (by simpa using h)]
      exact ih hnodup.2

theorem WInv_init : WInv initState := by
  refine ⟨?_, ?_, ?_⟩
  · intro r hr
    exact absurd hr (List.not_mem_nil r)
  · simp [initState]
  · intro r hr
    exact absurd hr (List.not_mem_nil r)

theorem insert_job_map_id (tbl : List JobRow) (job_id : Nat)
    (job_type : String) (payload : Option String) (now : Nat) :
    (insert_job tbl job_id job_type payload now).map (fun r => r.id)
      = tbl.map (fun r => r.id) ++ [job_id] := by
  unfold insert_job
  rw [List.map_append]
  rfl

theorem update_job_status_map_id (tbl : List JobRow) (job_id : Nat)
    (status : Status) (result error : Option String) (now : Nat) :
    (update_job_status tbl job_id status result error now).map (fun r => r.id)
      = tbl.map (fun r => r.id) := by
  rw [update_job_status]
  exact updateWhere_map_id job_id (applyStatusUpdate status result error now)
    (fun r => applyStatusUpdate_id status result error now r) tbl

theorem increment_job_retry_map_id (tbl : List JobRow) (job_id : Nat) :
    (increment_job_retry tbl job_id).map (fun r => r.id)
      = tbl.map (fun r => r.id) := by
  rw [increment_job_retry]
  exact updateWhere_map_id job_id applyRetryUpdate (fun r => rfl) tbl

theorem mark_failed_map_id (tbl : List JobRow) (job_id : Nat) (e : String)
    (b : Bool) (now : Nat) :
    (mark_failed tbl job_id e b now).map (fun r => r.id)
      = tbl.map (fun r => r.id) := by
  cases b
  · exact update_job_status_map_id tbl job_id Status.failed none (some e) now
  · exact increment_job_retry_map_id tbl job_id

theorem table_id_preserved_bound {tbl tbl2 : List JobRow} {n : Nat}
    (hmap : tbl2.map (fun r => r.id) = tbl.map (fun r => r.id))
    (hbound : ∀ r ∈ tbl, r.id < n) : ∀ r ∈ tbl2, r.id < n := by
  intro r hr
  have hmem : r.id ∈ tbl2.map (fun r => r.id) :=
    List.mem_map_of_mem (fun r => r.id) hr
  rw [hmap] at hmem
  obtain ⟨r2, hr2, hid⟩ := List.mem_map.mp hmem
  exact hid ▸ hbound r2 hr2

theorem table_id_preserved_nodup {tbl tbl2 : List JobRow}
    (hmap : tbl2.map (fun r => r.id) = tbl.map (fun r => r.id))
    (hnodup : (tbl.map (fun r => r.id)).Nodup) :
    (tbl2.map (fun r => r.id)).Nodup := by
  rw [hmap]
  exact hnodup

theorem WInv_preserved {max_retries : Nat} {s s2 : WState}
    (hinv : WInv s) (hstep : WStep max_retries s s2) : WInv s2 := by
  obtain ⟨hbound, hnodup, hphase⟩ := hinv
  cases hstep with
  | enqueueStep job_type payload now =>
    refine ⟨?_, ?_, ?_⟩
    · intro r hr
      show r.id < s.next_id + 1
      unfold insert_job at hr
      rcases List.mem_append.mp hr with h | h
      · exact Nat.lt_succ_of_lt (hbound r h)
      · rw [List.mem_singleton.mp h]
        exact Nat.lt_succ_self _
    · show ((insert_job s.tbl s.next_id job_type payload now).map
        (fun r => r.id)).Nodup
      rw [insert_job_map_id, List.nodup_append]
      refine ⟨hnodup, List.nodup_singleton _, ?_⟩
      intro a ha hb
      obtain ⟨r, hr, hra⟩ := List.mem_map.mp ha
      rw [List.mem_singleton.mp hb] at hra
      exact absurd (hra ▸ hbound r hr) (Nat.lt_irrefl _)
    · show PhaseInv s.phase (insert_job s.tbl s.next_id job_type payload now)
      cases hph : s.phase with
      | idle =>
        rw [hph] at hphase
        intro r hr
        unfold insert_job at hr
        rcases List.mem_append.mp hr with h | h
        · exact hphase r h
        · rw [List.mem_singleton.mp h]
          intro hcon
          exact Status.noConfusion hcon
      | running i rc =>
        rw [hph] at hphase
        intro r hr hp
        unfold insert_job at hr
        rcases List.mem_append.mp hr with h | h
        · exact hphase r h hp
        · rw [List.mem_singleton.mp h] at hp
          exact absurd hp (fun hcon => Status.noConfusion hcon)
  | pollEmpty h hq => exact ⟨hbound, hnodup, hphase⟩
  | dequeueStep job now h hq =>
    rw [h] at hphase
    have hmap := update_job_status_map_id s.tbl job.id Status.processing none none now
    refine ⟨table_id_preserved_bound hmap hbound,
      table_id_preserved_nodup hmap hnodup, ?_⟩
    show PhaseInv (WPhase.running job.id job.retry_count)
      (mark_processing s.tbl job.id now)
    intro r hr hp
    have hr2 : r ∈ updateWhere job.id
        (applyStatusUpdate Status.processing none none now) s.tbl := hr
    obtain ⟨r2, hr3, hform⟩ := updateWhere_mem hr2
    by_cases hid : r2.id = job.id
    · rw [hform, if_pos hid, applyStatusUpdate_id]
      exact hid
    · rw [hform, if_neg hid] at hp
      exact absurd hp (hphase r2 hr3)
  | completeStep i rc result now h =>
    rw [h] at hphase
    have hmap := update_job_status_map_id s.tbl i Status.completed
      (some (dumps result)) none now
    refine ⟨table_id_preserved_bound hmap hbound,
      table_id_preserved_nodup hmap hnodup, ?_⟩
    show PhaseInv WPhase.idle (mark_completed s.tbl i result now)
    intro r hr
    have hr2 : r ∈ updateWhere i
        (applyStatusUpdate Status.completed (some (dumps result)) none now) s.tbl := hr
    obtain ⟨r2, hr3, hform⟩ := updateWhere_mem hr2
    by_cases hid : r2.id = i
    · rw [hform, if_pos hid]
      intro hcon
      rw [applyStatusUpdate_status] at hcon
      exact Status.noConfusion hcon
    · rw [hform, if_neg hid]
      intro hp
      exact hid (hphase r2 hr3 hp)
  | failStep i rc error_msg now h =>
    rw [h] at hphase
    have hmap := mark_failed_map_id s.tbl i error_msg
      (decide (rc < max_retries)) now
    refine ⟨table_id_preserved_bound hmap hbound,
      table_id_preserved_nodup hmap hnodup, ?_⟩
    show PhaseInv WPhase.idle
      (mark_failed s.tbl i error_msg (decide (rc < max_retries)) now)
    cases hdec : decide (rc < max_retries) with
    | false =>
      intro r hr
      have hr2 : r ∈ updateWhere i
          (applyStatusUpdate Status.failed none (some error_msg) now) s.tbl := hr
      obtain ⟨r2, hr3, hform⟩ := updateWhere_mem hr2
      by_cases hid : r2.id = i
      · rw [hform, if_pos hid]
        intro hcon
        rw [applyStatusUpdate_status] at hcon
        exact Status.noConfusion hcon
      · rw [hform, if_neg hid]
        intro hp
        exact hid (hphase r2 hr3 hp)
    | true =>
      intro r hr
      have hr2 : r ∈ updateWhere i applyRetryUpdate s.tbl := hr
      obtain ⟨r2, hr3, hform⟩ := updateWhere_mem hr2
      by_cases hid : r2.id = i
      · rw [hform, if_pos hid]
        intro hcon
        exact Status.noConfusion hcon
      · rw [hform, if_neg hid]
        intro hp
        exact hid (hphase r2 hr3 hp)

theorem reachable_WInv {max_retries : Nat} {s : WState}
    (h : ReachableW max_retries s) : WInv s := by
  induction h with
  | init => exact WInv_init
  | step s s' hreach hstep ih => exact WInv_preserved ih hstep

/-- C1: in every state reachable under the worker step relation (single
worker driving all job state transitions, with arbitrary interleaved
enqueues), at most one row of the jobs table has status `processing`. -/
theorem C1_at_most_one_processing (max_retries : Nat) (s : WState)
    (h : ReachableW max_retries s) : processingCount s.tbl ≤ 1 := by
  obtain ⟨hbound, hnodup, hphase⟩ := reachable_WInv h
  cases hph : s.phase with
  | idle =>
    rw [hph] at hphase
    have hz : processingCount s.tbl = 0 := by
      rw [processingCount, List.countP_eq_zero]
      intro r hr hdec
      exact hphase r hr (of_decide_eq_true hdec)
    omega
  | running i rc =>
    rw [hph] at hphase
    calc processingCount s.tbl
        ≤ s.tbl.countP (fun r => decide (r.id = i)) := by
          apply List.countP_mono_left
          intro r hr hdec
          exact decide_eq_true (hphase r hr (of_decide_eq_true hdec))
      _ ≤ 1 := countP_le_one_of_nodup_ids hnodup i

/-- Evaluation witness for C1: the state reached by enqueuing one job and
dequeuing it into execution holds exactly one processing row. -/
theorem C1_at_most_one_processing_witness :
    processingCount wstate2.tbl ≤ 1 := by
  refine C1_at_most_one_processing 3 wstate2 ?_
  refine ReachableW.step wstate1 wstate2 ?_ ?_
  · exact ReachableW.step initState wstate1 ReachableW.init
      (WStep.enqueueStep initState "generate_report" none 0)
  · exact WStep.dequeueStep wstate1 job0 1 rfl rfl

theorem failingAttempt_singleton_retry (r : JobRow) (hs : r.status = Status.pending)
    (hlt : r.retry_count < job_max_retries) (e : String) (now : Nat) :
    failingAttempt job_max_retries e now [r]
      = [{ r with status := Status.pending,
                  retry_count := r.retry_count + 1,
                  result := none, error := none,
                  started_at := some now }] := by
  have hp : get_pending_job [r] = some r := by
    rw [get_pending_job, pendingRows]
    simp [hs, List.argmin_singleton]
  have hq : get_next_job [r] = some (rowToJob r) := by
    unfold get_next_job
    rw [hp]
  unfold failingAttempt
  rw [hq]
  show mark_failed (mark_processing [r] r.id now) r.id e
    (decide (r.retry_count < job_max_retries)) now = _
  rw [decide_eq_true hlt]
  show increment_job_retry (mark_processing [r] r.id now) r.id = _
  simp [mark_processing, update_job_status, increment_job_retry, updateWhere,
    applyStatusUpdate, applyRetryUpdate]

theorem failingAttempt_singleton_fail (r : JobRow) (hs : r.status = Status.pending)
    (hge : ¬ r.retry_count < job_max_retries) (e : String) (now : Nat) :
    failingAttempt job_max_retries e now [r]
      = [{ r with status := Status.failed,
                  result := none, error := some e,
                  started_at := some now,
                  completed_at := some now }] := by
  have hp : get_pending_job [r] = some r := by
    rw [get_pending_job, pendingRows]
    simp [hs, List.argmin_singleton]
  have hq : get_next_job [r] = some (rowToJob r) := by
    unfold get_next_job
    rw [hp]
  unfold failingAttempt
  rw [hq]
  show mark_failed (mark_processing [r] r.id now) r.id e
    (decide (r.retry_count < job_max_retries)) now = _
  rw [decide_eq_false hge]
  show update_job_status (mark_processing [r] r.id now) r.id Status.failed
    none (some e) now = _
  simp [mark_processing, update_job_status, updateWhere, applyStatusUpdate]

theorem failingAttempt_no_pending (max_retries : Nat) (e : String) (now : Nat)
    (tbl : List JobRow) (h : get_next_job tbl = none) :
    failingAttempt max_retries e now tbl = tbl := by
  unfold failingAttempt
  rw [h]

theorem runFailures_add (max_retries : Nat) (e : String) (now : Nat)
    (a b : Nat) (tbl : List JobRow) :
    runFailures max_retries e now (a + b) tbl
      = runFailures max_retries e now a (runFailures max_retries e now b tbl) := by
  induction b generalizing tbl with
  | zero => rfl
  | succ n ih =>
    show runFailures max_retries e now (a + n)
      (failingAttempt max_retries e now tbl) = _
    rw [ih]
    rfl

/-- C2: starting from a single pending job with retry_count 0, with the
default max_retries = 3 and an executor that raises on every attempt:
after each of the first 3 attempts the job is `pending` with retry_count
incremented by exactly one; after the 4th attempt it is `failed` with
retry_count = 3 and the error recorded; further worker iterations change
nothing and the job is never dequeued again. -/
theorem C2_retry_bound (j : JobRow) (hs : j.status = Status.pending)
    (hr : j.retry_count = 0) (error_msg : String) (now : Nat) :
    (∀ k, k ≤ job_max_retries →
      (runFailures job_max_retries error_msg now k [j]).map
          (fun r => (r.status, r.retry_count))
        = [(Status.pending, k)]) ∧
    ((runFailures job_max_retries error_msg now (job_max_retries + 1) [j]).map
        (fun r => (r.status, r.retry_count, r.error))
      = [(Status.failed, job_max_retries, some error_msg)]) ∧
    (∀ m, runFailures job_max_retries error_msg now (job_max_retries + 1 + m) [j]
      = runFailures job_max_retries error_msg now (job_max_retries + 1) [j]) ∧
    get_next_job
      (runFailures job_max_retries error_msg now (job_max_retries + 1) [j])
      = none := by
  have e1 : runFailures job_max_retries error_msg now 1 [j]
      = [retriedState j 1 now] := by
    have h1 : runFailures job_max_retries error_msg now 1 [j]
        = failingAttempt job_max_retries error_msg now [j] := rfl
    rw [h1, failingAttempt_singleton_retry j hs (by rw [hr]; decide) error_msg now]
    simp [retriedState, hr]
  have e2 : runFailures job_max_retries error_msg now 2 [j]
      = [retriedState j 2 now] := by
    have h1 : runFailures job_max_retries error_msg now 2 [j]
        = failingAttempt job_max_retries error_msg now
            (runFailures job_max_retries error_msg now 1 [j]) := rfl
    rw [h1, e1,
      failingAttempt_singleton_retry (retriedState j 1 now) rfl
        (by show (1 : Nat) < job_max_retries; decide) error_msg now]
    simp [retriedState]
  have e3 : runFailures job_max_retries error_msg now 3 [j]
      = [retriedState j 3 now] := by
    have h1 : runFailures job_max_retries error_msg now 3 [j]
        = failingAttempt job_max_retries error_msg now
            (runFailures job_max_retries error_msg now 2 [j]) := rfl
    rw [h1, e2,
      failingAttempt_singleton_retry (retriedState j 2 now) rfl
        (by show (2 : Nat) < job_max_retries; decide) error_msg now]
    simp [retriedState]
  have e4 : runFailures job_max_retries error_msg now 4 [j]
      = [failedState j error_msg now] := by
    have h1 : runFailures job_max_retries error_msg now 4 [j]
        = failingAttempt job_max_retries error_msg now
            (runFailures job_max_retries error_msg now 3 [j]) := rfl
    rw [h1, e3,
      failingAttempt_singleton_fail (retriedState j 3 now) rfl
        (by show ¬ (3 : Nat) < job_max_retries; decide) error_msg now]
    simp [retriedState, failedState, job_max_retries]
  have hnp : get_next_job [failedState j error_msg now] = none := by
    have h0 : get_pending_job [failedState j error_msg now] = none := by
      rw [get_pending_job, pendingRows]
      simp [failedState, List.argmin_nil]
    unfold get_next_job
    rw [h0]
  have stab : ∀ m, runFailures job_max_retries error_msg now m
      [failedState j error_msg now] = [failedState j error_msg now] := by
    intro m
    induction m with
    | zero => rfl
    | succ n ih =>
      show runFailures job_max_retries error_msg now n
        (failingAttempt job_max_retries error_msg now
          [failedState j error_msg now]) = _
      rw [failingAttempt_no_pending _ _ _ _ hnp]
      exact ih
  refine ⟨?_, ?_, ?_, ?_⟩
  · intro k hk
    have hk3 : k ≤ 3 := hk
    interval_cases k
    · show ([j].map (fun r => (r.status, r.retry_count))) = [(Status.pending, 0)]
      simp [hs, hr]
    · rw [e1]
      simp [retriedState]
    · rw [e2]
      simp [retriedState]
    · rw [e3]
      simp [retriedState]
  · show (runFailures job_max_retries error_msg now 4 [j]).map
        (fun r => (r.status, r.retry_count, r.error))
      = [(Status.failed, job_max_retries, some error_msg)]
    rw [e4]
    simp [failedState]
  · intro m
    show runFailures job_max_retries error_msg now (4 + m) [j]
      = runFailures job_max_retries error_msg now 4 [j]
    rw [Nat.add_comm 4 m, runFailures_add job_max_retries error_msg now m 4 [j],
      e4]
    exact stab m
  · show get_next_job (runFailures job_max_retries error_msg now 4 [j]) = none
    rw [e4]
    exact hnp

/-- Evaluation witness for C2 on the concrete job `rowA`. -/
theorem C2_retry_bound_witness :
    ((runFailures job_max_retries "RuntimeError: boom" 9 4 [rowA]).map
        (fun r => (r.status, r.retry_count, r.error))
      = [(Status.failed, 3, some "RuntimeError: boom")]) ∧
    get_next_job (runFailures job_max_retries "RuntimeError: boom" 9 4 [rowA])
      = none := by
  have h := C2_retry_bound rowA rfl rfl "RuntimeError: boom" 9
  exact ⟨h.2.1, h.2.2.2⟩

/-- C7: the worker loop propagates a cancellation (it is re-raised, not
swallowed), while any other exception from the loop's own control logic
is caught and followed by a 5-second pause, after which the loop
continues; the loop never terminates on a non-cancellation outcome. -/
theorem C7_loop_survives_errors :
    worker_loop_handle LoopIterOutcome.cancelled
        = LoopDirective.propagateCancellation ∧
    (∀ e, worker_loop_handle (LoopIterOutcome.error e)
        = LoopDirective.continueAfter 5) ∧
    (∀ o, o ≠ LoopIterOutcome.cancelled →
      ∃ p, worker_loop_handle o = LoopDirective.continueAfter p) := by
  refine ⟨rfl, fun e => rfl, ?_⟩
  intro o ho
  cases o with
  | ok => exact ⟨0, rfl⟩
  | cancelled => exact absurd rfl ho
  | error e => exact ⟨5, rfl⟩

/-- Evaluation witness for C7 at a concrete control-loop error. -/
theorem C7_loop_survives_errors_witness :
    ∃ p, worker_loop_handle (LoopIterOutcome.error "database is locked")
      = LoopDirective.continueAfter p :=
  C7_loop_survives_errors.2.2 (LoopIterOutcome.error "database is locked")
    (by decide)

/-- C3 counterexample: in the environment where Slack delivery raises,
`process_report_generation` re-raises the exception without running
`agent.cleanup()` — cleanup does not run on this exit path, contrary to
the claim that it runs on every exit path. -/
theorem C3_counterexample :
    (process_report_generation envDeliverFails).cleanup_ran = false ∧
    (process_report_generation envDeliverFails).outcome
      = Except.error { kind := "SlackApiError", msg := "channel not found" } :=
  ⟨rfl, rfl⟩

/-- C3 (amended): the `finally` block closes the thread's event loop on
every exit path, but `agent.cleanup()` runs exactly when generation,
persistence and delivery all succeed; when any of those steps raises, the
exception is re-raised to the worker loop without cleanup having run. -/
theorem C3_cleanup_only_on_success (env : ExecEnv) :
    (process_report_generation env).loop_closed = true ∧
    ((process_report_generation env).cleanup_ran = true ↔
      execOk (process_report_generation env).outcome = true) ∧
    (∀ e, (process_report_generation env).outcome = Except.error e →
      (process_report_generation env).cleanup_ran = false) := by
  obtain ⟨g, sv, d⟩ := env
  cases g with
  | error e0 =>
    refine ⟨rfl, ?_, ?_⟩ <;> simp [process_report_generation, execOk]
  | ok p =>
    obtain ⟨html, md⟩ := p
    cases hsv : sv html with
    | error e1 =>
      refine ⟨?_, ?_, ?_⟩ <;> simp [process_report_generation, hsv, execOk]
    | ok rid =>
      cases d with
      | error e2 =>
        refine ⟨?_, ?_, ?_⟩ <;> simp [process_report_generation, hsv, execOk]
      | ok u =>
        refine ⟨?_, ?_, ?_⟩ <;> simp [process_report_generation, hsv, execOk]

/-- Evaluation witness for the amended C3 in the delivery-failure
environment. -/
theorem C3_cleanup_only_on_success_witness :
    (process_report_generation envDeliverFails).loop_closed = true ∧
    (process_report_generation envDeliverFails).cleanup_ran = false := by
  have h := C3_cleanup_only_on_success envDeliverFails
  exact ⟨h.1, h.2.2 { kind := "SlackApiError", msg := "channel not found" } rfl⟩

/-- C8 counterexample: `trigger_report` never emits a queue enqueue — it
schedules a background task — and a request while a report is in progress
is rejected with a 409 conflict instead of producing a duplicate. -/
theorem C8_counterexample :
    trigger_report true
      = Except.error (409, "Report generation already in progress") ∧
    trigger_report false
      = Except.ok
          ({ status := "accepted",
             message := "Report generation started in background" },
           [TriggerEffect.add_background_task "generate_and_send_report"]) ∧
    TriggerEffect.enqueue_job "generate_report"
      ∉ [TriggerEffect.add_background_task "generate_and_send_report"] :=
  ⟨rfl, rfl, by decide⟩

/-- C8 (amended): the trigger surface returns immediately with an
accepted indicator and schedules `generate_and_send_report` as a
background task (report generation does not run synchronously and
`Queue.enqueue` is never called); a request while `report_in_progress` is
set is rejected with a 409 conflict rather than allowed as a
duplicate. -/
theorem C8_trigger_uses_background_task (report_in_progress : Bool) :
    (report_in_progress = true →
      trigger_report report_in_progress
        = Except.error (409, "Report generation already in progress")) ∧
    (report_in_progress = false →
      ∃ resp effs,
        trigger_report report_in_progress = Except.ok (resp, effs) ∧
        resp.status = "accepted" ∧
        effs = [TriggerEffect.add_background_task "generate_and_send_report"]) ∧
    (∀ resp effs,
      trigger_report report_in_progress = Except.ok (resp, effs) →
      ∀ t, TriggerEffect.enqueue_job t ∉ effs) := by
  cases report_in_progress with
  | false =>
    refine ⟨?_, ?_, ?_⟩
    · intro h
      exact Bool.noConfusion h
    · intro _
      exact ⟨_, _, rfl, rfl, rfl⟩
    · intro resp effs heq t hmem
      have heq2 : Except.ok
          (({ status := "accepted",
              message := "Report generation started in background" } :
            TriggerResponse),
           [TriggerEffect.add_background_task "generate_and_send_report"])
          = Except.ok (resp, effs) := heq
      rw [Except.ok.injEq, Prod.mk.injEq] at heq2
      rw [← heq2.2] at hmem
      simp at hmem
  | true =>
    refine ⟨fun _ => rfl, ?_, ?_⟩
    · intro h
      exact Bool.noConfusion h
    · intro resp effs heq t hmem
      simp [trigger_report] at heq

/-- Evaluation witness for the amended C8 at both flag values. -/
theorem C8_trigger_uses_background_task_witness :
    trigger_report true
      = Except.error (409, "Report generation already in progress") ∧
    (∃ resp effs, trigger_report false = Except.ok (resp, effs) ∧
      resp.status = "accepted" ∧
      effs = [TriggerEffect.add_background_task "generate_and_send_report"]) :=
  ⟨(C8_trigger_uses_background_task true).1 rfl,
   (C8_trigger_uses_background_task false).2.1 rfl⟩

end Watchdog
